import Mathlib

/-!
Verification of the resolwe storage core: the StorageLocation lifecycle
state machine, the listener command handlers operating on it, and the
AWS S3 storage connector operations `exists`, `get_hash` and `delete`.

The connector operations are embedded directly from
`resolwe/storage/connectors/s3connector.py`.  The listener handlers
(`handle_download_started`, `handle_download_finished`,
`handle_download_aborted`, `handle_missing_data_locations`,
`handle_resolve_url`) live in
`resolwe/flow/managers/listener/basic_commands_plugin.py`, which is not
part of the inspected slice; those are modelled from the specification
(sections 4.3-4.5) and pinned by the behaviour asserted in
`resolwe/storage/tests/test_listener.py`.
-/

namespace Resolwe

/-- Lifecycle status of a StorageLocation (spec section 4.3). -/
inductive LocationStatus where
  | preparing
  | uploading
  | done
  | deleting
  | error
  deriving DecidableEq, Repr

/-- One file belonging to a StorageLocation's contents: relative path,
size (in bytes, -1 when unknown) and one digest per hash algorithm
(`md5`, `crc32c`, `awss3etag`), as in `resolwe/storage/models.py`'s
`ReferencedPath` and the fixtures of `test_listener.py`. -/
structure ReferencedPath where
  id : Nat
  path : String
  size : Int
  md5 : String
  crc32c : String
  awss3etag : String
  deriving DecidableEq, Repr

/-- One physical copy of a FileStorage on one connector.  `file_storage`
is the id of the owning FileStorage; `files` is the set of
ReferencedPaths this copy holds. -/
structure StorageLocation where
  id : Nat
  file_storage : Nat
  connector_name : String
  status : LocationStatus
  url : String
  files : List ReferencedPath
  deriving DecidableEq, Repr

/-- The backing store of StorageLocations together with the id the next
created location receives (the database primary-key counter). -/
structure StorageState where
  locations : List StorageLocation
  nextId : Nat
  deriving DecidableEq, Repr

/-- Look a StorageLocation up by its id (`StorageLocation.all_objects.get(pk=...)`). -/
def findLocation (s : StorageState) (id : Nat) : Option StorageLocation :=
  s.locations.find? (fun l => decide (l.id = id))

/-- Update the status of the location with the given id, leaving every
other location unchanged. -/
def setStatus (s : StorageState) (id : Nat) (st : LocationStatus) : StorageState :=
  ⟨s.locations.map (fun l => if l.id = id then { l with status := st } else l), s.nextId⟩

/-- Modelled from the spec: `start_download` (section 4.3), the logic of
the `DOWNLOAD_STARTED` handler of `basic_commands_plugin.py`, which is
missing from the inspected slice.  If the location does not exist the
handler fails with `NotFound`.  Otherwise the response is decided by the
current status: `PREPARING` answers "download_started" (and, when `lock`
is set, atomically claims the `PREPARING -> UPLOADING` transition),
`UPLOADING` answers "download_in_progress" and `DONE` answers
"download_finished", both without touching the state.  The spec leaves
the `ERROR`/`DELETING` statuses unspecified; the model reports an error
for them.  The whole function is one atomic step, reflecting the spec's
requirement that the transition be a compare-and-swap against the
backing store. -/
def start_download (s : StorageState) (id : Nat) (lock : Bool) :
    Except String (String × StorageState) :=
  match findLocation s id with
  | none => .error "NotFound"
  | some loc =>
    match loc.status with
    | .preparing =>
        .ok ("download_started", if lock then setStatus s id .uploading else s)
    | .uploading => .ok ("download_in_progress", s)
    | .done => .ok ("download_finished", s)
    | _ => .error "invalid status"

/-- Modelled from the spec: `abort_download` (section 4.3), the logic of
the `DOWNLOAD_ABORTED` handler.  It reverts `UPLOADING -> PREPARING`,
answers "OK" as a no-op when the location does not exist, and never
fails (the result type has no error case). -/
def abort_download (s : StorageState) (id : Nat) : String × StorageState :=
  match findLocation s id with
  | none => ("OK", s)
  | some loc =>
    ("OK", if loc.status = .uploading then setStatus s id .preparing else s)

/-- Auxiliary fact: `List.find?` commutes with mapping a function that
does not change the value of the predicate. -/
theorem find?_map_eq_of_pred (l : List StorageLocation)
    (f : StorageLocation → StorageLocation) (p : StorageLocation → Bool)
    (hpf : ∀ x, p (f x) = p x) :
    (l.map f).find? p = (l.find? p).map f := by
  induction l with
  | nil => rfl
  | cons a t ih =>
    by_cases h : p a = true
    · simp [List.find?, hpf, h]
    · simp only [Bool.not_eq_true] at h
      simp [List.find?, hpf, h, ih]

/-- Looking a location up after `setStatus` on the same id finds the
same location with the new status. -/
theorem findLocation_setStatus (s : StorageState) (id : Nat)
    (st : LocationStatus) (loc : StorageLocation)
    (h : findLocation s id = some loc) :
    findLocation (setStatus s id st) id = some { loc with status := st } := by
  have hid : loc.id = id := by
    have := List.find?_some h
    simpa using this
  unfold findLocation setStatus
  rw [find?_map_eq_of_pred]
  · unfold findLocation at h
    rw [h]
    simp [hid]
  · intro x
    by_cases hx : x.id = id <;> simp [hx]

/-- Sample state used by the witnesses: one FileStorage (id 1) with a
`PREPARING` local location (id 7). -/
def witnessLoc : StorageLocation :=
  { id := 7, file_storage := 1, connector_name := "local",
    status := .preparing, url := "7", files := [] }

/-- Sample backing store holding `witnessLoc` only. -/
def witnessState : StorageState := ⟨[witnessLoc], 8⟩

/-- Case analysis of `start_download` on an existing location: the
response is a function of the current status, and the state changes
only for a locked `PREPARING` claim. -/
theorem start_download_cases (s : StorageState) (id : Nat)
    (lock : Bool) (loc : StorageLocation) (h : findLocation s id = some loc) :
    (loc.status = .preparing →
      start_download s id lock =
        .ok ("download_started", if lock then setStatus s id .uploading else s)) ∧
    (loc.status = .uploading → start_download s id lock = .ok ("download_in_progress", s)) ∧
    (loc.status = .done → start_download s id lock = .ok ("download_finished", s)) := by
  refine ⟨fun hs => ?_, fun hs => ?_, fun hs => ?_⟩ <;>
    simp [start_download, h, hs]

/-- C1: for every existing StorageLocation the `DOWNLOAD_STARTED`
handler answers according to the current status — "download_started"
for `PREPARING`, "download_in_progress" for `UPLOADING`,
"download_finished" for `DONE` — and it mutates the state (setting the
status to `UPLOADING`) only in the `PREPARING` case with `lock = true`;
with `lock = false` the same responses are produced and the state is
unchanged in every case. -/
theorem download_started_response_by_status (s : StorageState) (id : Nat)
    (lock : Bool) (loc : StorageLocation) (h : findLocation s id = some loc) :
    (loc.status = .preparing →
      start_download s id lock =
        .ok ("download_started", if lock then setStatus s id .uploading else s)) ∧
    (loc.status = .uploading → start_download s id lock = .ok ("download_in_progress", s)) ∧
    (loc.status = .done → start_download s id lock = .ok ("download_finished", s)) :=
  start_download_cases s id lock loc h

/-- Witness for `download_started_response_by_status` at a concrete
`PREPARING` location, with the lock taken. -/
theorem download_started_response_by_status_witness :
    start_download witnessState 7 true =
      .ok ("download_started", setStatus witnessState 7 .uploading) := by
  have := (download_started_response_by_status witnessState 7 true witnessLoc rfl).1 rfl
  simpa using this

/-- C2: two logically concurrent `start_download(lock = true)` calls on
the same `PREPARING` location produce exactly one "proceed".  Both calls
are atomic steps (the spec requires the transition to be a
compare-and-swap), so a concurrent execution is one of the two
sequential orders; the two callers are interchangeable, so both orders
are the composition below: the first linearised call answers
"download_started" and claims the transition, the second observes
`UPLOADING` and answers "download_in_progress" — never two
"download_started". -/
theorem start_download_exactly_one_proceed (s : StorageState) (id : Nat)
    (loc : StorageLocation) (h : findLocation s id = some loc)
    (hp : loc.status = .preparing) :
    ∃ s1 s2,
      start_download s id true = .ok ("download_started", s1) ∧
      start_download s1 id true = .ok ("download_in_progress", s2) ∧
      "download_started" ≠ "download_in_progress" := by
  refine ⟨setStatus s id .uploading, setStatus s id .uploading, ?_, ?_, by decide⟩
  · simpa using (start_download_cases s id true loc h).1 hp
  · have h2 : findLocation (setStatus s id .uploading) id =
        some { loc with status := .uploading } :=
      findLocation_setStatus s id .uploading loc h
    simpa using
      (start_download_cases (setStatus s id .uploading) id true
        { loc with status := .uploading } h2).2.1 rfl

/-- Witness for `start_download_exactly_one_proceed` on the concrete
sample state. -/
theorem start_download_exactly_one_proceed_witness :
    ∃ s1 s2,
      start_download witnessState 7 true = .ok ("download_started", s1) ∧
      start_download s1 7 true = .ok ("download_in_progress", s2) ∧
      "download_started" ≠ "download_in_progress" :=
  start_download_exactly_one_proceed witnessState 7 witnessLoc rfl rfl

/-- C6: `DOWNLOAD_ABORTED` reverts a location in status `UPLOADING`
back to `PREPARING`, it still answers OK as a no-op when the location
id does not exist, and it never fails: the response is "OK" for every
state and id. -/
theorem download_aborted_reverts_and_never_fails (s : StorageState) (id : Nat) :
    (abort_download s id).1 = "OK" ∧
    (∀ loc, findLocation s id = some loc → loc.status = .uploading →
      abort_download s id = ("OK", setStatus s id .preparing) ∧
      findLocation (setStatus s id .preparing) id =
        some { loc with status := .preparing }) ∧
    (findLocation s id = none → abort_download s id = ("OK", s)) := by
  refine ⟨?_, fun loc h hs => ⟨?_, findLocation_setStatus s id .preparing loc h⟩, fun h => ?_⟩
  · unfold abort_download
    cases findLocation s id <;> simp
  · simp [abort_download, h, hs]
  · simp [abort_download, h]

/-- Witness for `download_aborted_reverts_and_never_fails`: aborting a
concrete `UPLOADING` location reverts it to `PREPARING`, and aborting a
missing id is an OK no-op. -/
theorem download_aborted_reverts_and_never_fails_witness :
    (abort_download ⟨[{ witnessLoc with status := .uploading }], 8⟩ 7 =
      ("OK", setStatus ⟨[{ witnessLoc with status := .uploading }], 8⟩ 7 .preparing)) ∧
    abort_download witnessState 99 = ("OK", witnessState) :=
  ⟨((download_aborted_reverts_and_never_fails
      ⟨[{ witnessLoc with status := .uploading }], 8⟩ 7).2.1
      { witnessLoc with status := .uploading } rfl rfl).1,
   (download_aborted_reverts_and_never_fails witnessState 99).2.2 rfl⟩

/-- All `DONE` locations of the given FileStorage, in store order. -/
def doneLocations (s : StorageState) (fs : Nat) : List StorageLocation :=
  s.locations.filter (fun l => decide (l.file_storage = fs) && decide (l.status = .done))

/-- Pick the location whose connector has the best (numerically
smallest) priority; the earlier of two ties wins.  This is the
deterministic backend-priority order of spec section 3. -/
def bestBy (prio : String → Nat) : List StorageLocation → Option StorageLocation
  | [] => none
  | l :: ls =>
    match bestBy prio ls with
    | none => some l
    | some b => if prio l.connector_name ≤ prio b.connector_name then some l else some b

/-- Modelled from the spec: `FileStorage.default_storage_location` of
`resolwe/storage/models.py`, which is missing from the inspected slice:
the highest-priority `DONE` location of the FileStorage, `none` when no
`DONE` location exists. -/
def default_storage_location (prio : String → Nat) (s : StorageState) (fs : Nat) :
    Option StorageLocation :=
  bestBy prio (doneLocations s fs)

/-- Apply a function to the location with the given id, leaving every
other location unchanged. -/
def updateLocation (s : StorageState) (id : Nat)
    (f : StorageLocation → StorageLocation) : StorageState :=
  ⟨s.locations.map (fun l => if l.id = id then f l else l), s.nextId⟩

/-- Modelled from the spec: `finish_download` (section 4.3), the logic
of the `DOWNLOAD_FINISHED` handler of `basic_commands_plugin.py`, which
is missing from the inspected slice.  It fails with `NotFound` when the
location id does not exist; otherwise it sets the status to `DONE` and
copies the ReferencedPath set of the FileStorage's default (`DONE`)
location onto this location (a finished download is byte-identical to
its source).  The spec leaves the case of a FileStorage with no default
location unspecified; the model reports an error for it. -/
def finish_download (prio : String → Nat) (s : StorageState) (id : Nat) :
    Except String StorageState :=
  match findLocation s id with
  | none => .error "NotFound"
  | some loc =>
    match default_storage_location prio s loc.file_storage with
    | none => .error "no default storage location"
    | some d =>
      .ok (updateLocation s id (fun l => { l with status := .done, files := d.files }))

/-- Looking a location up after `updateLocation` on the same id finds
the image of the found location, provided the update keeps the id. -/
theorem findLocation_updateLocation (s : StorageState) (id : Nat)
    (f : StorageLocation → StorageLocation) (loc : StorageLocation)
    (h : findLocation s id = some loc) (hf : ∀ l, (f l).id = l.id) :
    findLocation (updateLocation s id f) id = some (f loc) := by
  have hid : loc.id = id := by
    have := List.find?_some h
    simpa using this
  unfold findLocation updateLocation
  rw [find?_map_eq_of_pred]
  · unfold findLocation at h
    rw [h]
    simp [hid]
  · intro x
    by_cases hx : x.id = id <;> simp [hx, hf]

/-- C3: for every existing StorageLocation whose FileStorage has a
default `DONE` location, `finish_download` succeeds, sets the location's
status to `DONE` and copies the default location's entire ReferencedPath
set — the very same path/size/hash records, hence the same paths and the
same hash value for every algorithm — onto it; and for a location id
that does not exist it fails with `NotFound`. -/
theorem finish_download_copies_files (prio : String → Nat) (s : StorageState)
    (id : Nat) :
    (∀ loc d, findLocation s id = some loc →
      default_storage_location prio s loc.file_storage = some d →
      finish_download prio s id =
        .ok (updateLocation s id (fun l => { l with status := .done, files := d.files })) ∧
      findLocation
        (updateLocation s id (fun l => { l with status := .done, files := d.files })) id =
        some { loc with status := .done, files := d.files }) ∧
    (findLocation s id = none → finish_download prio s id = .error "NotFound") := by
  refine ⟨fun loc d h hd => ⟨?_, ?_⟩, fun h => ?_⟩
  · simp [finish_download, h, hd]
  · exact findLocation_updateLocation s id _ loc h (fun l => rfl)
  · simp [finish_download, h]

/-- Sample `DONE` source location used by the `finish_download`
witness: same FileStorage as `witnessLoc`, on connector "GCS", holding
one fully hashed file. -/
def witnessDoneLoc : StorageLocation :=
  { id := 3, file_storage := 1, connector_name := "GCS", status := .done,
    url := "1",
    files := [{ id := 1, path := "test.me", size := -1,
                md5 := "md5", crc32c := "crc", awss3etag := "aws" }] }

/-- Witness for `finish_download_copies_files` on a concrete store: the
local `PREPARING` copy becomes `DONE` and receives the file set of the
`DONE` source. -/
theorem finish_download_copies_files_witness :
    finish_download (fun _ => 0) ⟨[witnessDoneLoc, witnessLoc], 8⟩ 7 =
      .ok (updateLocation ⟨[witnessDoneLoc, witnessLoc], 8⟩ 7
        (fun l => { l with status := .done, files := witnessDoneLoc.files })) ∧
    findLocation
      (updateLocation ⟨[witnessDoneLoc, witnessLoc], 8⟩ 7
        (fun l => { l with status := .done, files := witnessDoneLoc.files })) 7 =
      some { witnessLoc with status := .done, files := witnessDoneLoc.files } :=
  (finish_download_copies_files (fun _ => 0) ⟨[witnessDoneLoc, witnessLoc], 8⟩ 7).1
    witnessLoc witnessDoneLoc rfl rfl

/-- Result of one S3 backend call: either the loaded object data or a
`botocore` ClientError carrying an error code string. -/
inductive S3LoadResult (α : Type) where
  | ok (value : α)
  | clientError (code : String)
  deriving DecidableEq, Repr

/-- The data boto3 exposes on a loaded S3 object: its native entity tag
and its user metadata mapping. -/
structure S3ObjectData where
  e_tag : String
  metadata : List (String × String)
  deriving DecidableEq, Repr

/-- The `hash_propery` mapping of `AwsS3Connector.__init__`
(`{"awss3etag": "e_tag"}`): hash types read from a native object
property rather than from user metadata. -/
def hash_propery : List (String × String) := [("awss3etag", "e_tag")]

/-- Python's `str.strip('"')`: remove every leading and trailing `"`
character. -/
def stripQuotes (s : String) : String :=
  (((s.toList.dropWhile (fun c => decide (c = '"'))).reverse.dropWhile
      (fun c => decide (c = '"'))).reverse).asString

/-- `AwsS3Connector.exists` (s3connector.py lines 136-148): load the
object; answer `true` on success, `false` when the backend reports a
404 ClientError, and re-raise any ClientError with another code.  The
backend is a function from the object url to the outcome of loading
it. -/
def exists' (backend : String → S3LoadResult S3ObjectData) (url : String) :
    Except String Bool :=
  match backend url with
  | .ok _ => .ok true
  | .clientError code => if code = "404" then .ok false else .error code

/-- `AwsS3Connector.get_hash` (s3connector.py lines 119-134): read the
hash of the given type from the loaded object — the stripped `e_tag`
property for the types in `hash_propery`, the user metadata entry
otherwise (`none` when the metadata carries no such key).  A 404
ClientError becomes `none`; any other ClientError is re-raised. -/
def get_hash (backend : String → S3LoadResult S3ObjectData) (url : String)
    (hash_type : String) : Except String (Option String) :=
  match backend url with
  | .clientError code => if code = "404" then .ok none else .error code
  | .ok obj =>
    if (hash_propery.lookup hash_type).isSome then
      .ok (some (stripQuotes obj.e_tag))
    else
      .ok (obj.metadata.lookup hash_type)

/-- C7: `exists` and `get_hash` translate the backend's "not found"
condition (ClientError with code 404) into the domain values `false`
and `none`, re-raise every ClientError whose code is not 404 unchanged,
and report presence as `true` when the object loads, so a caller can
tell a definitely absent object from an unknown backend problem. -/
theorem exists_get_hash_translate_not_found
    (backend : String → S3LoadResult S3ObjectData) (url : String)
    (hash_type : String) :
    (backend url = .clientError "404" →
      exists' backend url = .ok false ∧
      get_hash backend url hash_type = .ok none) ∧
    (∀ code, code ≠ "404" → backend url = .clientError code →
      exists' backend url = .error code ∧
      get_hash backend url hash_type = .error code) ∧
    (∀ obj, backend url = .ok obj → exists' backend url = .ok true) := by
  refine ⟨fun h => ⟨?_, ?_⟩, fun code hc h => ⟨?_, ?_⟩, fun obj h => ?_⟩
  · simp [exists', h]
  · simp [get_hash, h]
  · simp [exists', h, hc]
  · simp [get_hash, h, hc]
  · simp [exists', h]

/-- Concrete backend for the C7 witness: "absent" loads as a 404
ClientError, "forbidden" as a 403 ClientError, and every other url as
an object with entity tag `"etag"` and empty metadata. -/
def witnessBackend (url : String) : S3LoadResult S3ObjectData :=
  if url = "absent" then .clientError "404"
  else if url = "forbidden" then .clientError "403"
  else .ok ⟨"\"etag\"", []⟩

/-- Witness for `exists_get_hash_translate_not_found` on the concrete
backend: 404 gives `false`/`none`, 403 propagates, presence gives
`true`. -/
theorem exists_get_hash_translate_not_found_witness :
    (exists' witnessBackend "absent" = .ok false ∧
      get_hash witnessBackend "absent" "md5" = .ok none) ∧
    (exists' witnessBackend "forbidden" = .error "403" ∧
      get_hash witnessBackend "forbidden" "md5" = .error "403") ∧
    exists' witnessBackend "present" = .ok true :=
  ⟨(exists_get_hash_translate_not_found witnessBackend "absent" "md5").1 rfl,
   (exists_get_hash_translate_not_found witnessBackend "forbidden" "md5").2.1
     "403" (by decide) rfl,
   (exists_get_hash_translate_not_found witnessBackend "present" "md5").2.2
     ⟨"\"etag\"", []⟩ rfl⟩

/-- One `bucket.delete_objects` backend call issued by
`AwsS3Connector.delete`: the keys of the batch and the `Quiet`
(best-effort) flag. -/
structure DeleteCall where
  objects : List String
  quiet : Bool
  deriving DecidableEq, Repr

/-- The batch-size bound of `AwsS3Connector.delete` (s3connector.py
line 81): at most 1000 objects can be deleted at the same time. -/
def max_chunk : Nat := 1000

/-- `AwsS3Connector.delete` (s3connector.py lines 77-86), embedded as
the sequence of backend batch-delete calls it issues: the slicing loop
`for i in range(0, len(urls), max_chunk)` emits one quiet
`delete_objects` call per chunk `urls[i : i + max_chunk]`. -/
def delete : List String → List DeleteCall
  | [] => []
  | u :: us =>
    ⟨(u :: us).take max_chunk, true⟩ :: delete ((u :: us).drop max_chunk)
termination_by l => l.length
decreasing_by
  simp only [List.length_drop, List.length_cons, max_chunk]
  omega

/-- Unfolding equation of `delete` on a non-empty list. -/
theorem delete_cons (u : String) (us : List String) :
    delete (u :: us) =
      ⟨(u :: us).take max_chunk, true⟩ :: delete ((u :: us).drop max_chunk) := by
  rw [delete]

/-- The loop issues exactly `ceil(N / max_chunk)` backend calls. -/
theorem delete_length (urls : List String) :
    (delete urls).length = (urls.length + (max_chunk - 1)) / max_chunk := by
  induction urls using delete.induct with
  | case1 => simp [delete, max_chunk]
  | case2 u us ih =>
    rw [delete_cons, List.length_cons, ih]
    simp only [List.length_drop, List.length_cons, max_chunk] at *
    by_cases hN : us.length + 1 ≤ 1000
    · have h0 : us.length + 1 - 1000 = 0 := by omega
      have h1 : us.length + 1 + 999 = us.length + 1000 := by omega
      rw [h0, h1, Nat.add_div_right _ (by omega),
        Nat.div_eq_of_lt (by omega), Nat.div_eq_of_lt (by omega)]
    · have h1 : us.length + 1 + 999 = us.length + 1 - 1000 + 999 + 1000 := by omega
      rw [h1, Nat.add_div_right _ (by omega)]

/-- Every backend call carries at most `max_chunk` keys and is quiet. -/
theorem delete_call_bounds (urls : List String) :
    ∀ c ∈ delete urls, c.objects.length ≤ max_chunk ∧ c.quiet = true := by
  induction urls using delete.induct with
  | case1 => simp [delete]
  | case2 u us ih =>
    rw [delete_cons]
    intro c hc
    rcases List.mem_cons.mp hc with h | h
    · subst h
      exact ⟨(u :: us).length_take_le max_chunk, rfl⟩
    · exact ih c h

/-- The chunks concatenate back to the input, in order. -/
theorem delete_covers (urls : List String) :
    ((delete urls).map DeleteCall.objects).flatten = urls := by
  induction urls using delete.induct with
  | case1 => simp [delete]
  | case2 u us ih =>
    rw [delete_cons, List.map_cons]
    show ((u :: us).take max_chunk ::
      (delete ((u :: us).drop max_chunk)).map DeleteCall.objects).flatten = u :: us
    rw [List.flatten_cons, ih]
    exact List.take_append_drop _ _

/-- `delete` issues no call for the empty list and at least one call
otherwise. -/
theorem delete_eq_nil_iff (urls : List String) : delete urls = [] ↔ urls = [] := by
  cases urls with
  | nil => simp [delete]
  | cons u us => rw [delete_cons]; simp

/-- Every chunk except possibly the last carries exactly `max_chunk`
keys. -/
theorem delete_dropLast_full (urls : List String) :
    ∀ c ∈ (delete urls).dropLast, c.objects.length = max_chunk := by
  induction urls using delete.induct with
  | case1 => simp [delete]
  | case2 u us ih =>
    rw [delete_cons]
    by_cases hd : delete ((u :: us).drop max_chunk) = []
    · simp [hd]
    · obtain ⟨c0, cs, hcs⟩ := List.exists_cons_of_ne_nil hd
      rw [hcs, List.dropLast_cons₂]
      intro c hc
      rcases List.mem_cons.mp hc with h | h
      · subst h
        have hlong : max_chunk < (u :: us).length := by
          by_contra hle
          exact hd ((delete_eq_nil_iff _).mpr
            (List.drop_eq_nil_iff.mpr (by omega)))
        simp only [List.length_cons] at hlong
        simp [List.length_take]
        omega
      · exact ih c (by rw [hcs]; exact h)

/-- Amended C9: for every list of N paths `AwsS3Connector.delete`
issues `ceil(N / 1000)` backend batch-delete calls, splitting the
request into chunks of at most the backend's maximum batch size (1000)
— every chunk except possibly the last carrying exactly 1000 keys —
that together cover exactly the input paths in order, each issued as a
quiet (best-effort) delete. -/
theorem delete_chunking (urls : List String) :
    (delete urls).length = (urls.length + (max_chunk - 1)) / max_chunk ∧
    (∀ c ∈ delete urls, c.objects.length ≤ max_chunk ∧ c.quiet = true) ∧
    (∀ c ∈ (delete urls).dropLast, c.objects.length = max_chunk) ∧
    ((delete urls).map DeleteCall.objects).flatten = urls :=
  ⟨delete_length urls, delete_call_bounds urls, delete_dropLast_full urls,
   delete_covers urls⟩

/-- Witness for `delete_chunking`: two concrete paths fit in one quiet
call of two keys. -/
theorem delete_chunking_witness :
    (delete ["a", "b"]).length = (2 + (max_chunk - 1)) / max_chunk ∧
    (DeleteCall.mk ["a", "b"] true).objects.length ≤ max_chunk ∧
    (DeleteCall.mk ["a", "b"] true).quiet = true ∧
    ((delete ["a", "b"]).map DeleteCall.objects).flatten = ["a", "b"] := by
  have h := delete_chunking ["a", "b"]
  have hmem : DeleteCall.mk ["a", "b"] true ∈ delete ["a", "b"] := by
    rw [delete_cons]
    simp [max_chunk]
  exact ⟨h.1, (h.2.1 _ hmem).1, (h.2.1 _ hmem).2, h.2.2.2⟩

/-- Counterexample to C9 as stated: the chunks are not of equal size.
On 1001 paths the loop issues two calls, one of 1000 keys and one of a
single key. -/
theorem delete_equal_size_chunks_false :
    (delete (List.replicate 1001 "p")).map
        (fun c => c.objects.length) = [1000, 1] ∧ (1000 : Nat) ≠ 1 := by
  refine ⟨?_, by decide⟩
  have h1001 : List.replicate 1001 "p" = "p" :: List.replicate 1000 "p" := rfl
  rw [h1001, delete_cons, ← h1001]
  have htake : (List.replicate 1001 "p").take max_chunk = List.replicate 1000 "p" := by
    rw [List.take_replicate]
    simp [max_chunk]
  have hdrop : (List.replicate 1001 "p").drop max_chunk = ["p"] := by
    rw [List.drop_replicate]
    simp [max_chunk]
  rw [htake, hdrop, delete_cons]
  have ht2 : (["p"] : List String).take max_chunk = ["p"] :=
    List.take_of_length_le (by simp [max_chunk])
  have hd2 : (["p"] : List String).drop max_chunk = [] :=
    List.drop_eq_nil_iff.mpr (by simp [max_chunk])
  rw [ht2, hd2, (delete_eq_nil_iff []).mpr rfl]
  simp only [List.map_cons, List.map_nil, List.length_replicate,
    List.length_cons, List.length_nil]

/-- Response status of a listener reply (`ResponseStatus` of
`socket_utils.py`). -/
inductive RStatus where
  | ok
  | error
  deriving DecidableEq, Repr

/-- A registered connector as URL resolution sees it: its name, its
bucket/namespace ownership rule (`claims url` answers the object key
when the url belongs to this connector's bucket) and its
`presigned_url` operation, which answers `none` on backend error. -/
structure Connector where
  name : String
  claims : String → Option String
  presign : String → Option String

/-- Modelled from the spec: `find_owning_connector` of the Connector
Registry (section 4.2), which is missing from the inspected slice:
iterate the registered connectors and return the first whose ownership
rule claims the url, together with the claimed key, or `none` when no
connector claims it. -/
def find_owning_connector : List Connector → String → Option (Connector × String)
  | [], _ => none
  | c :: cs, url =>
    match c.claims url with
    | some key => some (c, key)
    | none => find_owning_connector cs url

/-- Modelled from the spec: the logic of the `RESOLVE_URL` handler of
`basic_commands_plugin.py` (section 4.5), which is missing from the
inspected slice: when a registered connector claims the url's bucket,
answer that connector's presigned URL for the key; when no connector
claims it, or the claiming connector cannot presign, echo the input
unchanged. -/
def resolve_url (registry : List Connector) (url : String) : String :=
  match find_owning_connector registry url with
  | none => url
  | some (c, key) =>
    match c.presign key with
    | none => url
    | some presigned => presigned

/-- The `RESOLVE_URL` handler always answers OK; the function is total,
so the handler never raises. -/
def handle_resolve_url (registry : List Connector) (url : String) : RStatus × String :=
  (RStatus.ok, resolve_url registry url)

/-- C8: the `RESOLVE_URL` handler never raises — it answers OK for
every input — and it echoes the input unchanged when no registered
connector claims the url or when the claiming connector cannot
presign, while a claimed url resolves to the claiming connector's
presigned URL for the key. -/
theorem resolve_url_never_raises (registry : List Connector) (url : String) :
    (handle_resolve_url registry url).1 = RStatus.ok ∧
    (find_owning_connector registry url = none →
      handle_resolve_url registry url = (RStatus.ok, url)) ∧
    (∀ c key, find_owning_connector registry url = some (c, key) →
      (c.presign key = none → handle_resolve_url registry url = (RStatus.ok, url)) ∧
      (∀ p, c.presign key = some p →
        handle_resolve_url registry url = (RStatus.ok, p))) := by
  refine ⟨rfl, fun h => ?_, fun c key h => ⟨fun hp => ?_, fun p hp => ?_⟩⟩
  · simp [handle_resolve_url, resolve_url, h]
  · simp [handle_resolve_url, resolve_url, h, hp]
  · simp [handle_resolve_url, resolve_url, h, hp]

/-- The S3 connector of the `test_handle_resolve_url` scenario: it owns
bucket "test" (claiming the key of `s3://test/<key>` urls) and its
mocked presign answers the key prefixed with "presigned_". -/
def s3TestConnector : Connector :=
  { name := "S3",
    claims := fun url =>
      if url = "s3://test/key" then some ("key")
      else if url = "s3://test/other" then some ("other") else none,
    presign := fun key => some ("presigned_" ++ key) }

/-- Witness for `resolve_url_never_raises`, mirroring the test: an
unclaimed url echoes unchanged, and the claimed `s3://test/key`
resolves to `presigned_key`. -/
theorem resolve_url_never_raises_witness :
    handle_resolve_url [s3TestConnector] "http://test_me" =
      (RStatus.ok, "http://test_me") ∧
    handle_resolve_url [s3TestConnector] "s3://test/key" =
      (RStatus.ok, "presigned_key") :=
  ⟨(resolve_url_never_raises [s3TestConnector] "http://test_me").2.1 rfl,
   ((resolve_url_never_raises [s3TestConnector] "s3://test/key").2.2
      s3TestConnector "key" rfl).2 "presigned_key" rfl⟩

/-- A computation (the `Data` model): its id and the id of its
FileStorage (the `location` foreign key). -/
structure Data where
  id : Nat
  location : Nat
  deriving DecidableEq, Repr

/-- One transfer-plan entry of the `MISSING_DATA_LOCATIONS` response,
with the field names asserted by `test_handle_missing_data_locations`. -/
structure PlanEntry where
  data_id : Nat
  from_connector : String
  from_storage_location_id : Nat
  to_storage_location_id : Nat
  to_connector : String
  deriving DecidableEq, Repr

/-- Does the FileStorage already have a `DONE` location on the local
connector? -/
def hasLocalDone (s : StorageState) (fs : Nat) : Bool :=
  (doneLocations s fs).any (fun l => decide (l.connector_name = "local"))

/-- The FileStorage's existing location on the local connector, in any
status (the lookup of `get_or_create`). -/
def findLocalLocation (s : StorageState) (fs : Nat) : Option StorageLocation :=
  s.locations.find?
    (fun l => decide (l.file_storage = fs) && decide (l.connector_name = "local"))

/-- Modelled from the spec: `StorageLocation.all_objects.get_or_create`
for the local connector — reuse the FileStorage's existing local
location, or create a fresh one in `PREPARING` state carrying the
source location's url.  Answers the updated store and the id of the
destination location. -/
def getOrCreateLocal (s : StorageState) (fs : Nat) (url : String) :
    StorageState × Nat :=
  match findLocalLocation s fs with
  | some l => (s, l.id)
  | none =>
    (⟨s.locations ++
        [{ id := s.nextId, file_storage := fs, connector_name := "local",
           status := .preparing, url := url, files := [] }],
      s.nextId + 1⟩,
     s.nextId)

/-- Modelled from the spec: `compute_missing_locations` (section 4.4),
the logic of the `MISSING_DATA_LOCATIONS` handler of
`basic_commands_plugin.py`, which is missing from the inspected slice.
The handler walks the computation's IO-dependency parents in order: a
parent whose FileStorage already has a local `DONE` location is
omitted; otherwise the highest-priority `DONE` location is the copy
source (failing with the response pinned by
`test_handle_missing_data_locations_missing_storage_location`, the
string "No storage location exists", when none exists anywhere), a
local destination location is created or reused, and one entry keyed by
the destination's url is added.  The store is threaded through, so
state changes made before a failure persist (the handler is not
transactional over the whole walk). -/
def computeMissing (prio : String → Nat) (s : StorageState) :
    List Data → StorageState × Except String (List (String × PlanEntry))
  | [] => (s, .ok [])
  | p :: ps =>
    if hasLocalDone s p.location then computeMissing prio s ps
    else
      match default_storage_location prio s p.location with
      | none => (s, .error "No storage location exists")
      | some src =>
        let res := getOrCreateLocal s p.location src.url
        match computeMissing prio res.1 ps with
        | (s2, .ok es) =>
          (s2, .ok ((src.url,
            { data_id := p.id, from_connector := src.connector_name,
              from_storage_location_id := src.id,
              to_storage_location_id := res.2,
              to_connector := "local" }) :: es))
        | (s2, .error m) => (s2, .error m)

/-- `getOrCreateLocal` only ever appends local `PREPARING` locations. -/
theorem getOrCreateLocal_locations (s : StorageState) (fs : Nat) (url : String) :
    ∃ tail, (getOrCreateLocal s fs url).1.locations = s.locations ++ tail ∧
      ∀ l ∈ tail, l.status = .preparing ∧ l.connector_name = "local" := by
  unfold getOrCreateLocal
  cases h : findLocalLocation s fs with
  | some l => exact ⟨[], by simp⟩
  | none =>
    refine ⟨[{ id := s.nextId, file_storage := fs, connector_name := "local",
               status := .preparing, url := url, files := [] }], rfl, ?_⟩
    intro l hl
    rw [List.mem_singleton] at hl
    subst hl
    exact ⟨rfl, rfl⟩

/-- Appending locations that are not `DONE` does not change the `DONE`
set of any FileStorage. -/
theorem doneLocations_append (locs tail : List StorageLocation) (n : Nat) (fs : Nat)
    (ht : ∀ l ∈ tail, l.status = .preparing) :
    doneLocations ⟨locs ++ tail, n⟩ fs = doneLocations ⟨locs, n⟩ fs := by
  unfold doneLocations
  rw [List.filter_append]
  have : tail.filter
      (fun l => decide (l.file_storage = fs) && decide (l.status = .done)) = [] := by
    rw [List.filter_eq_nil_iff]
    intro l hl
    have := ht l hl
    simp [this]
  rw [this, List.append_nil]

/-- `getOrCreateLocal` does not change the `DONE` set of any
FileStorage. -/
theorem doneLocations_getOrCreateLocal (s : StorageState) (fs : Nat) (url : String)
    (fs' : Nat) :
    doneLocations (getOrCreateLocal s fs url).1 fs' = doneLocations s fs' := by
  obtain ⟨tail, heq, hprep⟩ := getOrCreateLocal_locations s fs url
  calc doneLocations (getOrCreateLocal s fs url).1 fs'
      = doneLocations ⟨s.locations ++ tail, (getOrCreateLocal s fs url).1.nextId⟩ fs' := by
        rw [← heq]
    _ = doneLocations s fs' := doneLocations_append _ _ _ _ (fun l hl => (hprep l hl).1)

/-- The planner walk only ever appends local `PREPARING` locations to
the store, whether it succeeds or fails. -/
theorem computeMissing_locations_grow (prio : String → Nat) (parents : List Data) :
    ∀ s : StorageState, ∃ tail,
      (computeMissing prio s parents).1.locations = s.locations ++ tail ∧
      ∀ l ∈ tail, l.status = .preparing ∧ l.connector_name = "local" := by
  induction parents with
  | nil => intro s; exact ⟨[], by simp [computeMissing]⟩
  | cons p ps ih =>
    intro s
    by_cases hld : hasLocalDone s p.location
    · obtain ⟨t, ht, hmem⟩ := ih s
      refine ⟨t, ?_, hmem⟩
      unfold computeMissing
      rw [if_pos hld]
      exact ht
    · cases hdef : default_storage_location prio s p.location with
      | none =>
        refine ⟨[], ?_, by simp⟩
        unfold computeMissing
        rw [if_neg hld]
        simp [hdef]
      | some src =>
        obtain ⟨t1, ht1, hp1⟩ := getOrCreateLocal_locations s p.location src.url
        obtain ⟨t2, ht2, hp2⟩ := ih (getOrCreateLocal s p.location src.url).1
        have hmem : ∀ l ∈ t1 ++ t2,
            l.status = .preparing ∧ l.connector_name = "local" := by
          intro l hl
          rcases List.mem_append.mp hl with h | h
          · exact hp1 l h
          · exact hp2 l h
        refine ⟨t1 ++ t2, ?_, hmem⟩
        unfold computeMissing
        rw [if_neg hld]
        simp only [hdef]
        cases hcm : computeMissing prio (getOrCreateLocal s p.location src.url).1 ps with
        | mk s2 r =>
          rw [hcm] at ht2
          simp only at ht2
          cases r with
          | ok es => simp only; rw [ht2, ht1, List.append_assoc]
          | error m => simp only; rw [ht2, ht1, List.append_assoc]

/-- The only failure the planner walk can report is the fixed response
string "No storage location exists". -/
theorem computeMissing_error_msg (prio : String → Nat) (parents : List Data) :
    ∀ s m, (computeMissing prio s parents).2 = .error m →
      m = "No storage location exists" := by
  induction parents with
  | nil => intro s m h; simp [computeMissing] at h
  | cons p ps ih =>
    intro s m h
    unfold computeMissing at h
    by_cases hld : hasLocalDone s p.location
    · rw [if_pos hld] at h
      exact ih s m h
    · rw [if_neg hld] at h
      cases hdef : default_storage_location prio s p.location with
      | none => rw [hdef] at h; simpa using h.symm
      | some src =>
        rw [hdef] at h
        simp only at h
        cases hcm : computeMissing prio (getOrCreateLocal s p.location src.url).1 ps with
        | mk s2 r =>
          rw [hcm] at h
          cases r with
          | ok es => simp at h
          | error m2 =>
            simp only at h
            have hm : m2 = m := by simpa using h
            exact hm ▸ ih _ m2 (by rw [hcm])

/-- Every plan entry the walk produces belongs to one of the walked
parents. -/
theorem computeMissing_entry_ids (prio : String → Nat) (parents : List Data) :
    ∀ s es, (computeMissing prio s parents).2 = .ok es →
      ∀ e ∈ es, e.2.data_id ∈ parents.map Data.id := by
  induction parents with
  | nil =>
    intro s es h e he
    simp [computeMissing] at h
    subst h
    simp at he
  | cons p ps ih =>
    intro s es h e he
    unfold computeMissing at h
    by_cases hld : hasLocalDone s p.location
    · rw [if_pos hld] at h
      exact List.mem_cons_of_mem _ (ih s es h e he)
    · rw [if_neg hld] at h
      cases hdef : default_storage_location prio s p.location with
      | none => rw [hdef] at h; simp at h
      | some src =>
        rw [hdef] at h
        simp only at h
        cases hcm : computeMissing prio (getOrCreateLocal s p.location src.url).1 ps with
        | mk s2 r =>
          rw [hcm] at h
          cases r with
          | error m => simp at h
          | ok es2 =>
            simp only [Except.ok.injEq] at h
            subst h
            rcases List.mem_cons.mp he with hh | hh
            · subst hh
              simp
            · exact List.mem_cons_of_mem _ (ih _ es2 (by rw [hcm]) e hh)

/-- Creating or reusing a local destination does not change whether any
FileStorage has a local `DONE` location. -/
theorem hasLocalDone_getOrCreateLocal (s : StorageState) (fs : Nat) (url : String)
    (fs' : Nat) :
    hasLocalDone (getOrCreateLocal s fs url).1 fs' = hasLocalDone s fs' := by
  unfold hasLocalDone
  rw [doneLocations_getOrCreateLocal]

/-- Creating or reusing a local destination does not change any
FileStorage's default location. -/
theorem default_storage_location_getOrCreateLocal (prio : String → Nat)
    (s : StorageState) (fs : Nat) (url : String) (fs' : Nat) :
    default_storage_location prio (getOrCreateLocal s fs url).1 fs' =
      default_storage_location prio s fs' := by
  unfold default_storage_location
  rw [doneLocations_getOrCreateLocal]

/-- Amended C5: for every computation with an IO-dependency parent that
has no `DONE` StorageLocation on any connector, the
`MISSING_DATA_LOCATIONS` walk fails, surfaced as an ERROR response
whose message is the fixed string "No storage location exists" (the
message does not name the missing computation). -/
theorem missing_data_locations_no_done_fails (prio : String → Nat)
    (parents : List Data) (p : Data) :
    ∀ s : StorageState, p ∈ parents → doneLocations s p.location = [] →
      (computeMissing prio s parents).2 = .error "No storage location exists" := by
  induction parents with
  | nil => intro s hp _; simp at hp
  | cons q qs ih =>
    intro s hp hnone
    rcases List.mem_cons.mp hp with hq | hq
    · subst hq
      have hld : ¬hasLocalDone s p.location = true := by
        unfold hasLocalDone
        rw [hnone]
        simp
      have hdef : default_storage_location prio s p.location = none := by
        unfold default_storage_location
        rw [hnone]
        rfl
      unfold computeMissing
      rw [if_neg hld]
      simp [hdef]
    · by_cases hld : hasLocalDone s q.location
      · unfold computeMissing
        rw [if_pos hld]
        exact ih s hq hnone
      · cases hdef : default_storage_location prio s q.location with
        | none =>
          unfold computeMissing
          rw [if_neg hld]
          simp [hdef]
        | some src =>
          have hnone2 : doneLocations (getOrCreateLocal s q.location src.url).1
              p.location = [] := by
            rw [doneLocations_getOrCreateLocal]
            exact hnone
          have hrec := ih (getOrCreateLocal s q.location src.url).1 hq hnone2
          unfold computeMissing
          rw [if_neg hld]
          simp only [hdef]
          cases hcm : computeMissing prio (getOrCreateLocal s q.location src.url).1 qs with
          | mk s2 r =>
            rw [hcm] at hrec
            cases r with
            | ok es => simp at hrec
            | error m => simpa using hrec

/-- Witness for `missing_data_locations_no_done_fails`: one parent
whose FileStorage (id 5) has no location at all makes the walk fail
with the fixed message. -/
theorem missing_data_locations_no_done_fails_witness :
    (computeMissing (fun _ => 0) ⟨[], 1⟩ [⟨2, 5⟩]).2 =
      .error "No storage location exists" :=
  missing_data_locations_no_done_fails (fun _ => 0) [⟨2, 5⟩] ⟨2, 5⟩ ⟨[], 1⟩
    (List.mem_singleton.mpr rfl) rfl

/-- Counterexample to C5 as stated: the ERROR message does not name the
missing computation.  Two scenarios whose missing computations have the
different ids 2 and 7 produce the identical fixed message, and the
message for computation 2 does not even contain the character `2`. -/
theorem missing_data_locations_error_message_counterexample :
    (computeMissing (fun _ => 0) ⟨[], 1⟩ [⟨2, 5⟩]).2 =
      .error "No storage location exists" ∧
    (computeMissing (fun _ => 0) ⟨[], 1⟩ [⟨7, 5⟩]).2 =
      .error "No storage location exists" ∧
    ("No storage location exists".toList.contains '2') = false := by
  exact ⟨rfl, rfl, by decide⟩

/-- A remote `DONE` location of FileStorage 10, used by the C10
counterexample. -/
def cxSrcLoc : StorageLocation :=
  { id := 1, file_storage := 10, connector_name := "remote",
    status := .done, url := "u", files := [] }

/-- Store of the C10 counterexample: FileStorage 10 has a remote `DONE`
copy and no local one; FileStorage 20 has no location at all. -/
def cxState : StorageState := ⟨[cxSrcLoc], 2⟩

/-- Counterexample to C10 as stated: when the walk fails because the
second parent (FileStorage 20) has no `DONE` location anywhere, the
location set is not left unchanged — the local `PREPARING` destination
already created for the first parent (FileStorage 10) persists. -/
theorem missing_data_locations_side_effect_counterexample :
    (computeMissing (fun _ => 0) cxState [⟨5, 10⟩, ⟨6, 20⟩]).2 =
      .error "No storage location exists" ∧
    (computeMissing (fun _ => 0) cxState [⟨5, 10⟩, ⟨6, 20⟩]).1 ≠ cxState ∧
    (computeMissing (fun _ => 0) cxState [⟨5, 10⟩, ⟨6, 20⟩]).1.locations =
      cxState.locations ++
        [{ id := 2, file_storage := 10, connector_name := "local",
           status := .preparing, url := "u", files := [] }] := by
  exact ⟨rfl, by decide, rfl⟩

/-- Amended C10: when the `MISSING_DATA_LOCATIONS` walk fails because a
dependency has no `DONE` location anywhere, the only state change is
the local `PREPARING` destination locations already created for
dependencies processed before the failure; no location is created for
the failing dependency itself, and with a single dependency — the
scenario of the test — the store is left entirely unchanged. -/
theorem missing_data_locations_error_side_effects (prio : String → Nat)
    (s : StorageState) (parents : List Data) (m : String)
    (herr : (computeMissing prio s parents).2 = .error m) :
    (∃ tail, (computeMissing prio s parents).1.locations = s.locations ++ tail ∧
      ∀ l ∈ tail, l.status = .preparing ∧ l.connector_name = "local") ∧
    (∀ p, parents = [p] → (computeMissing prio s parents).1 = s) := by
  refine ⟨computeMissing_locations_grow prio parents s, ?_⟩
  intro p hp
  subst hp
  by_cases hld : hasLocalDone s p.location
  · unfold computeMissing at herr
    rw [if_pos hld] at herr
    simp [computeMissing] at herr
  · cases hdef : default_storage_location prio s p.location with
    | none =>
      unfold computeMissing
      rw [if_neg hld]
      simp [hdef]
    | some src =>
      unfold computeMissing at herr
      rw [if_neg hld] at herr
      simp only [hdef] at herr
      simp [computeMissing] at herr

/-- Witness for `missing_data_locations_error_side_effects`: the
failing single-parent walk of the C5 witness leaves the empty store
untouched. -/
theorem missing_data_locations_error_side_effects_witness :
    (computeMissing (fun _ => 0) ⟨[], 1⟩ [⟨2, 5⟩]).1 = ⟨[], 1⟩ :=
  (missing_data_locations_error_side_effects (fun _ => 0) ⟨[], 1⟩ [⟨2, 5⟩]
    "No storage location exists" rfl).2 ⟨2, 5⟩ rfl

/-- Remote `DONE` source of the C4 counterexample (FileStorage 1). -/
def c4Src : StorageLocation :=
  { id := 1, file_storage := 1, connector_name := "not_local",
    status := .done, url := "u", files := [] }

/-- Pre-existing local location of FileStorage 1, still `UPLOADING`. -/
def c4Existing : StorageLocation :=
  { id := 2, file_storage := 1, connector_name := "local",
    status := .uploading, url := "u", files := [] }

/-- Store of the C4 counterexample. -/
def c4State : StorageState := ⟨[c4Src, c4Existing], 3⟩

/-- Counterexample to C4 as stated: when the parent's FileStorage
already has a local location that is not `DONE`, the walk reuses it
instead of creating one.  The plan entry's destination (location id 2)
is the pre-existing local location, which is in status `UPLOADING`, and
the store is left unchanged (no location is newly created), refuting
"keyed by the newly created local PREPARING location". -/
theorem missing_data_locations_reuse_counterexample :
    (computeMissing (fun _ => 0) c4State [⟨5, 1⟩]).2 =
      .ok [("u", { data_id := 5, from_connector := "not_local",
                   from_storage_location_id := 1, to_storage_location_id := 2,
                   to_connector := "local" })] ∧
    (computeMissing (fun _ => 0) c4State [⟨5, 1⟩]).1 = c4State ∧
    findLocation c4State 2 = some c4Existing ∧
    c4Existing.status = .uploading ∧ c4Existing.status ≠ .preparing := by
  exact ⟨rfl, rfl, rfl, rfl, by decide⟩

/-- Entries drawn from the given parent ids contain nothing for an id
outside them. -/
theorem filter_data_id_eq_nil (es : List (String × PlanEntry)) (ids : List Nat)
    (n : Nat) (h : ∀ e ∈ es, e.2.data_id ∈ ids) (hn : n ∉ ids) :
    es.filter (fun e => decide (e.2.data_id = n)) = [] := by
  rw [List.filter_eq_nil_iff]
  intro e he
  simp only [decide_eq_true_eq]
  intro hEq
  exact hn (hEq ▸ h e he)

/-- Amended C4: for every computation whose IO-dependency parents have
pairwise distinct ids, a successful `MISSING_DATA_LOCATIONS` walk omits
every parent that already has a `DONE` location on the local connector
(no plan entry carries its id), and for each remaining parent emits
exactly one entry — keyed by the destination's url, which it inherits
from the source — recording the parent's computation id, the connector
name and location id of the highest-priority existing `DONE` location,
and the destination connector "local" with the destination location's
id, where the destination is the parent FileStorage's local location:
the pre-existing one reused as-is when it exists, a newly created
`PREPARING` one otherwise. -/
theorem missing_data_locations_plan (prio : String → Nat) (parents : List Data) :
    ∀ (s : StorageState) (es : List (String × PlanEntry)),
      (parents.map Data.id).Nodup →
      (computeMissing prio s parents).2 = .ok es →
      ∀ p ∈ parents,
        (hasLocalDone s p.location = true →
          es.filter (fun e => decide (e.2.data_id = p.id)) = []) ∧
        (hasLocalDone s p.location = false →
          ∃ src dest,
            default_storage_location prio s p.location = some src ∧
            es.filter (fun e => decide (e.2.data_id = p.id)) =
              [(src.url,
                { data_id := p.id, from_connector := src.connector_name,
                  from_storage_location_id := src.id,
                  to_storage_location_id := dest.id,
                  to_connector := "local" })] ∧
            dest ∈ (computeMissing prio s parents).1.locations ∧
            dest.connector_name = "local" ∧ dest.file_storage = p.location ∧
            (dest ∈ s.locations ∨ dest.status = .preparing)) := by
  induction parents with
  | nil => intro s es _ _ p hp; simp at hp
  | cons q qs ih =>
    intro s es hnodup hok p hp
    rw [List.map_cons, List.nodup_cons] at hnodup
    obtain ⟨hqid, hnodup'⟩ := hnodup
    by_cases hld : hasLocalDone s q.location
    · have hstep : computeMissing prio s (q :: qs) = computeMissing prio s qs := by
        conv_lhs => unfold computeMissing
        rw [if_pos hld]
      rw [hstep] at hok
      rcases List.mem_cons.mp hp with hpq | hpq
      · subst hpq
        refine ⟨fun _ => ?_, fun hf => ?_⟩
        · exact filter_data_id_eq_nil es _ p.id
            (computeMissing_entry_ids prio qs s es hok) hqid
        · rw [hld] at hf
          cases hf
      · have hres := ih s es hnodup' hok p hpq
        rw [hstep]
        exact hres
    · have hldq : hasLocalDone s q.location = false := by
        cases hv : hasLocalDone s q.location
        · rfl
        · exact absurd hv hld
      cases hdef : default_storage_location prio s q.location with
      | none =>
        exfalso
        unfold computeMissing at hok
        rw [if_neg hld] at hok
        simp [hdef] at hok
      | some src =>
        cases hcm : computeMissing prio (getOrCreateLocal s q.location src.url).1 qs with
        | mk s2 r =>
          cases r with
          | error m =>
            exfalso
            unfold computeMissing at hok
            rw [if_neg hld] at hok
            simp only [hdef] at hok
            rw [hcm] at hok
            simp at hok
          | ok es2 =>
            have hstep : computeMissing prio s (q :: qs) =
                (s2, .ok ((src.url,
                  { data_id := q.id, from_connector := src.connector_name,
                    from_storage_location_id := src.id,
                    to_storage_location_id := (getOrCreateLocal s q.location src.url).2,
                    to_connector := "local" }) :: es2)) := by
              unfold computeMissing
              rw [if_neg hld]
              simp only [hdef]
              rw [hcm]
            rw [hstep] at hok
            simp only [Except.ok.injEq] at hok
            subst hok
            obtain ⟨t1, ht1, hp1⟩ := getOrCreateLocal_locations s q.location src.url
            obtain ⟨t2, ht2, hp2⟩ :=
              computeMissing_locations_grow prio qs (getOrCreateLocal s q.location src.url).1
            rw [hcm] at ht2
            simp only at ht2
            have hfilter2 :
                es2.filter (fun e => decide (e.2.data_id = q.id)) = [] :=
              filter_data_id_eq_nil es2 _ q.id
                (computeMissing_entry_ids prio qs _ es2 (by rw [hcm])) hqid
            rcases List.mem_cons.mp hp with hpq | hpq
            · subst hpq
              refine ⟨fun ht => ?_, fun _ => ?_⟩
              · rw [hldq] at ht
                cases ht
              · cases hfind : findLocalLocation s p.location with
                | some l =>
                  have hdestId : (getOrCreateLocal s p.location src.url).2 = l.id := by
                    unfold getOrCreateLocal
                    rw [hfind]
                  have hs' : (getOrCreateLocal s p.location src.url).1 = s := by
                    unfold getOrCreateLocal
                    rw [hfind]
                  have hlmem : l ∈ s.locations := List.mem_of_find?_eq_some hfind
                  have hlpred := List.find?_some hfind
                  simp only [Bool.and_eq_true, decide_eq_true_eq] at hlpred
                  obtain ⟨hlfs, hlcn⟩ := hlpred
                  refine ⟨src, l, hdef, ?_, ?_, hlcn, hlfs, Or.inl hlmem⟩
                  · rw [hdestId, List.filter_cons_of_pos (by simp), hfilter2]
                  · rw [hstep]
                    show l ∈ s2.locations
                    rw [ht2, hs']
                    exact List.mem_append_left _ hlmem
                | none =>
                  refine ⟨src,
                    { id := s.nextId, file_storage := p.location,
                      connector_name := "local", status := .preparing,
                      url := src.url, files := [] }, hdef, ?_, ?_, rfl, rfl, Or.inr rfl⟩
                  · have hdestId : (getOrCreateLocal s p.location src.url).2 = s.nextId := by
                      unfold getOrCreateLocal
                      rw [hfind]
                    rw [hdestId, List.filter_cons_of_pos (by simp), hfilter2]
                  · have hs' : (getOrCreateLocal s p.location src.url).1.locations =
                        s.locations ++
                          [{ id := s.nextId, file_storage := p.location,
                             connector_name := "local", status := .preparing,
                             url := src.url, files := [] }] := by
                      unfold getOrCreateLocal
                      rw [hfind]
                    rw [hstep]
                    show _ ∈ s2.locations
                    rw [ht2, hs']
                    exact List.mem_append_left _
                      (List.mem_append_right _ (List.mem_singleton.mpr rfl))
            · have hpid : q.id ≠ p.id := by
                intro hEq
                exact hqid (hEq ▸ List.mem_map_of_mem Data.id hpq)
              have hcons :
                  ∀ tailEs : List (String × PlanEntry),
                    (((src.url,
                      { data_id := q.id, from_connector := src.connector_name,
                        from_storage_location_id := src.id,
                        to_storage_location_id :=
                          (getOrCreateLocal s q.location src.url).2,
                        to_connector := "local" }) :: tailEs).filter
                      (fun e => decide (e.2.data_id = p.id))) =
                    tailEs.filter (fun e => decide (e.2.data_id = p.id)) := by
                intro tailEs
                rw [List.filter_cons_of_neg (by simp [hpid])]
              have hres := ih (getOrCreateLocal s q.location src.url).1 es2 hnodup'
                (by rw [hcm]) p hpq
              rw [hasLocalDone_getOrCreateLocal] at hres
              rw [default_storage_location_getOrCreateLocal] at hres
              refine ⟨fun ht => ?_, fun hf => ?_⟩
              · rw [hcons]
                exact hres.1 ht
              · obtain ⟨src', dest, hdef', hfil, hmem, hcn, hfs, hor⟩ := hres.2 hf
                refine ⟨src', dest, hdef', ?_, ?_, hcn, hfs, ?_⟩
                · rw [hcons]
                  exact hfil
                · rw [hstep]
                  rw [hcm] at hmem
                  exact hmem
                · rcases hor with hin | hprep
                  · rw [ht1] at hin
                    rcases List.mem_append.mp hin with h | h
                    · exact Or.inl h
                    · exact Or.inr (hp1 dest h).1
                  · exact Or.inr hprep

/-- Remote `DONE` source used by the plan witness (FileStorage 10). -/
def c4wSrc : StorageLocation :=
  { id := 1, file_storage := 10, connector_name := "not_local",
    status := .done, url := "url", files := [] }

/-- Store of the plan witness: a remote copy only, as in
`test_handle_missing_data_locations`. -/
def c4wState : StorageState := ⟨[c4wSrc], 2⟩

/-- Witness for `missing_data_locations_plan`, mirroring
`test_handle_missing_data_locations`: the single parent (id 2,
FileStorage 10) with only a remote `DONE` copy gets exactly one entry,
sourced from the remote location and destined for a fresh local
`PREPARING` location. -/
theorem missing_data_locations_plan_witness :
    ∃ src dest,
      default_storage_location (fun _ => 0) c4wState 10 = some src ∧
      ([(("url" : String),
         ({ data_id := 2, from_connector := "not_local",
            from_storage_location_id := 1, to_storage_location_id := 2,
            to_connector := "local" } : PlanEntry))].filter
        (fun e => decide (e.2.data_id = 2))) =
        [(src.url,
          { data_id := 2, from_connector := src.connector_name,
            from_storage_location_id := src.id,
            to_storage_location_id := dest.id, to_connector := "local" })] ∧
      dest ∈ (computeMissing (fun _ => 0) c4wState [⟨2, 10⟩]).1.locations ∧
      dest.connector_name = "local" ∧ dest.file_storage = 10 ∧
      (dest ∈ c4wState.locations ∨ dest.status = .preparing) :=
  (missing_data_locations_plan (fun _ => 0) [⟨2, 10⟩] c4wState
    [("url", { data_id := 2, from_connector := "not_local",
               from_storage_location_id := 1, to_storage_location_id := 2,
               to_connector := "local" })] (by decide) rfl ⟨2, 10⟩
    (List.mem_singleton.mpr rfl)).2 rfl

end Resolwe
